import Mathlib

/-!
# Verification of `4_calculate_betting_statistics.py`

A shallow embedding of the betting-statistics pipeline
(`src/4_calculate_betting_statistics.py`) and proofs about it.

Modelling conventions:
* Calendar dates are `Int` (days since an epoch); `yesterday - timedelta(days=k)`
  becomes integer subtraction, so the embedding has no truncation artifacts.
* A pandas `NaN` / `NaT` cell is `Option.none`; a present value is `some v`.
* Floats are modelled as `ℚ` (the pipeline only compares, averages and stores
  them; no float-rounding behaviour is relied on by any statement proved here).
* `pd.to_datetime(-, errors := coerce)` is an external pandas primitive; the
  pipeline is parameterised by `parseDate : String → Option Int` standing for
  it (unparseable inputs give `none`, i.e. `NaT`).
* File paths are structured values `(directory, stem, date)`: the scripts build
  every path by instantiating a fixed per-directory filename template with a
  date string, and that instantiation is injective, so path equality is
  equality of the `(dir, stem, date)` triple.
-/

namespace BettingStats

/-! ## Python `float()` on decimal literals

`process_prediction_file` runs
`df[c].astype(str).str.replace(',', '.').astype(float)` on the odds columns.
`astype(float)` calls Python's `float()` on each token; we model its behaviour
on plain decimal literals (optional sign, digits, at most one point, at least
one digit), which covers every token the odds columns can legally hold; any
other token raises `ValueError` in Python and yields `none` here. -/

/-- Accumulate a run of decimal digits; `none` if a non-digit occurs. -/
def parseDigitsAcc : List Char → Nat → Option Nat
  | [], acc => some acc
  | c :: cs, acc =>
      if c.isDigit then parseDigitsAcc cs (acc * 10 + (c.toNat - 48)) else none

/-- Split a character list at the first occurrence of `sep`, if any. -/
def splitAtFirst (sep : Char) : List Char → Option (List Char × List Char)
  | [] => none
  | c :: cs =>
      if c = sep then some ([], cs)
      else (splitAtFirst sep cs).map (fun p => (c :: p.1, p.2))

/-- Parse an unsigned decimal literal (digits with at most one point,
at least one digit in total). The value `i.f` is the rational
`(i·10^len(f) + f) / 10^len(f)`. -/
def parseUnsignedFloat (cs : List Char) : Option ℚ :=
  match splitAtFirst '.' cs with
  | none =>
      if cs = [] then none
      else (parseDigitsAcc cs 0).map (fun n => (n : ℚ))
  | some (ip, fp) =>
      if fp.any (fun c => c = '.') then none
      else if ip = [] && fp = [] then none
      else
        match parseDigitsAcc ip 0, parseDigitsAcc fp 0 with
        | some i, some f => some (mkRat (i * 10 ^ fp.length + f) (10 ^ fp.length))
        | _, _ => none

/-- Python `float(s)` on a decimal literal: optional sign, then an unsigned
decimal literal. `none` models the `ValueError` raised on any other token. -/
def pyFloat (s : String) : Option ℚ :=
  match s.toList with
  | '+' :: rest => parseUnsignedFloat rest
  | '-' :: rest => (parseUnsignedFloat rest).map Neg.neg
  | cs => parseUnsignedFloat cs

/-- `str.replace(',', '.')` on an odds token: every comma becomes a point. -/
def commaToPoint (s : String) : String :=
  String.mk (s.toList.map (fun c => if c = ',' then '.' else c))

/-- Convert one odds token exactly as the merge step does:
comma → point, then `float()`; a failure is the `MalformedNumberError`
(`ValueError`) that aborts the batch. -/
def parseOddsToken (s : String) : Except String ℚ :=
  match pyFloat (commaToPoint s) with
  | some q => Except.ok q
  | none => Except.error "MalformedNumberError"

/-! ## Row types, stage by stage -/

/-- A row of the prediction CSV as read by `pd.read_csv`: the odds columns
(`odds 1` / `odds 2` in the file) are still raw string tokens; `home_team_prob`
is the numeric value of the probability cell, `none` for a cell that is not
numeric (pandas `NaN`, as produced by `pd.to_numeric(-, errors := coerce)`);
`result` is `none` while unresolved (`NaN` in the file). -/
structure RawPredRow where
  home_team : String
  away_team : String
  home_team_prob : Option ℚ
  odds1 : String
  odds2 : String
  result : Option String
  date : String
  deriving DecidableEq

/-- A prediction row restricted to the canonical column set
`(home_team, away_team, home_team_prob, odds_home, odds_away, result, date)` —
the `columns_to_display` selection of `process_prediction_file` (the source
CSV calls the odds columns `odds 1` and `odds 2`). -/
structure PredRow where
  home_team : String
  away_team : String
  home_team_prob : Option ℚ
  odds_home : ℚ
  odds_away : ℚ
  result : Option String
  date : String
  deriving DecidableEq

/-- A prediction row together with the `accuracy` column, the shape of the
concatenated DataFrame inside `process_prediction_file` before the
`columns_to_display` selection drops `accuracy` again. -/
structure PredRowAcc extends PredRow where
  accuracy : Option ℚ
  deriving DecidableEq

/-- A row of the ledger after `update_betting_statistics` has normalized the
`date` column with `pd.to_datetime(-, errors := coerce)`: `date` is `none`
for `NaT`. -/
@[ext]
structure RecRow where
  home_team : String
  away_team : String
  home_team_prob : Option ℚ
  odds_home : ℚ
  odds_away : ℚ
  result : Option String
  date : Option Int
  deriving DecidableEq

/-- A fully scored row: after `astype(str)` the `result` column is a plain
string — an unresolved `NaN` has become the literal string `"nan"` — and
`accuracy` is the 0/1 value of the correctness predicate. -/
structure ScoredRow where
  home_team : String
  away_team : String
  home_team_prob : Option ℚ
  odds_home : ℚ
  odds_away : ℚ
  result : String
  date : Option Int
  accuracy : ℚ
  deriving DecidableEq

/-- A row of the daily games (outcomes/statistics) CSV: `won` is the
boolean-like 0/1 integer column, `season` the season identifier; `date` is
the raw date string before `pd.to_datetime`. -/
structure OutcomeRaw where
  date : String
  team : String
  won : Nat
  season : Nat
  deriving DecidableEq

/-- An outcome row after date normalization (`NaT` = `none`). -/
structure OutcomeRow where
  date : Option Int
  team : String
  won : Nat
  deriving DecidableEq

/-- A dated artifact path: directory, filename stem, and the date that
instantiates the template's placeholder. Template instantiation is injective,
so path equality is equality of this triple. -/
structure SnapshotPath where
  dir : String
  stem : String
  date : Int
  deriving DecidableEq

/-! ## DateRangeLocator (`find_most_recent_prediction_file`)

The source loops `days_back` from `0` while `days_back <= MAX_DAYS_BACK`,
checks `yesterday - timedelta(days = days_back)` and returns the first date
whose instantiated filename exists; `None` if the loop exhausts the window. -/

/-- `MAX_DAYS_BACK = 120` from the source. -/
def MAX_DAYS_BACK : Nat := 120

/-- The backward search loop: try `ref - daysBack`, `ref - (daysBack+1)`, …
for `remaining` attempts, returning the first date `d` with `fs d = true`.
`fs` is the filesystem's existence predicate for the directory/template in
use (`os.path.isfile` closed over the fixed directory and template). -/
def searchBack (fs : Int → Bool) (ref : Int) : Nat → Nat → Option Int
  | _, 0 => none
  | daysBack, remaining + 1 =>
      let d := ref - (daysBack : Int)
      if fs d then some d else searchBack fs ref (daysBack + 1) remaining

/-- `find_most_recent_prediction_file`: search from `yesterday` backwards,
`days_back = 0, 1, …, MAX_DAYS_BACK` (121 attempts); return the matched date
(the source returns the matched path and its date string, and the path is the
fixed template instantiated at that date). -/
def find_most_recent_prediction_file (fs : Int → Bool) (yesterday : Int) :
    Option Int :=
  searchBack fs yesterday 0 (MAX_DAYS_BACK + 1)

/-- Modelled from the spec: `find_file_in_date_range` lives in `nba_utils`,
which is not part of this repository snapshot; per the spec (§4.1) the
statistics locator performs the same bounded one-day-at-a-time backward
search from its reference date with the same `MAX_DAYS_BACK` bound. -/
def find_file_in_date_range (fs : Int → Bool) (ref : Int) : Option Int :=
  searchBack fs ref 0 (MAX_DAYS_BACK + 1)

/-! ## Ledger merge (`process_prediction_file`) -/

/-- Convert both odds columns of one raw row; the first failing token aborts
the batch with the `ValueError` of `astype(float)` (the source converts the
whole `odds 1` column, then the whole `odds 2` column; when every token
converts, doing it row by row yields the same rows, and a single bad token
aborts the batch either way). -/
def parseRowOdds (r : RawPredRow) : Except String PredRow :=
  match parseOddsToken r.odds1, parseOddsToken r.odds2 with
  | Except.ok o1, Except.ok o2 =>
      Except.ok ⟨r.home_team, r.away_team, r.home_team_prob, o1, o2,
                 r.result, r.date⟩
  | Except.error e, _ => Except.error e
  | _, Except.error e => Except.error e

/-- Convert every row of the batch, aborting on the first malformed token. -/
def parseBatch : List RawPredRow → Except String (List PredRow)
  | [] => Except.ok []
  | r :: rs =>
      match parseRowOdds r, parseBatch rs with
      | Except.ok p, Except.ok ps => Except.ok (p :: ps)
      | Except.error e, _ => Except.error e
      | _, Except.error e => Except.error e

/-- Lexicographic comparison of character lists by code point — the order
pandas uses when sorting a string column, restricted to what the `date`
column's `YYYY-MM-DD` strings exercise. -/
def strLeChars : List Char → List Char → Bool
  | [], _ => true
  | _ :: _, [] => false
  | a :: as, b :: bs =>
      if a.toNat < b.toNat then true
      else if b.toNat < a.toNat then false
      else strLeChars as bs

/-- Lexicographic `≤` on strings. -/
def strLe (a b : String) : Bool := strLeChars a.toList b.toList

/-- The sort relation of `sort_values(by := date, ascending := False)`:
row `a` may precede row `b` when `a`'s date is at least `b`'s (dates at this
stage are still the `YYYY-MM-DD` strings of the CSV). -/
def dateDesc (a b : PredRowAcc) : Prop := strLe b.date a.date = true

instance : DecidableRel dateDesc :=
  fun a b => inferInstanceAs (Decidable (strLe b.date a.date = true))

instance : IsTotal PredRowAcc dateDesc :=
  ⟨fun a b => by
    have key : ∀ x y : List Char, strLeChars x y = true ∨ strLeChars y x = true := by
      intro x
      induction x with
      | nil =>
          intro y
          cases y <;> simp [strLeChars]
      | cons a as ih =>
          intro y
          cases y with
          | nil => simp [strLeChars]
          | cons b bs =>
              simp only [strLeChars]
              rcases Nat.lt_trichotomy a.toNat b.toNat with h | h | h
              · simp [h]
              · simp [h, Nat.lt_irrefl]
                exact ih bs
              · simp [h, Nat.lt_asymm h]
    exact Or.elim (key b.date.toList a.date.toList)
      (fun h => Or.inl h) (fun h => Or.inr h)⟩

instance : IsTrans PredRowAcc dateDesc :=
  ⟨fun a b c h1 h2 => by
    have key : ∀ x y z : List Char, strLeChars x y = true →
        strLeChars y z = true → strLeChars x z = true := by
      intro x
      induction x with
      | nil => intro y z _ _; cases z <;> simp [strLeChars]
      | cons a as ih =>
          intro y z hxy hyz
          cases y with
          | nil => simp [strLeChars] at hxy
          | cons b bs =>
              cases z with
              | nil => simp [strLeChars] at hyz
              | cons c cs =>
                  simp only [strLeChars] at hxy hyz ⊢
                  by_cases hab : a.toNat < b.toNat
                  · by_cases hbc : b.toNat < c.toNat
                    · simp [Nat.lt_trans hab hbc]
                    · simp only [hbc, if_false] at hyz
                      by_cases hcb : c.toNat < b.toNat
                      · simp [hcb] at hyz
                      · have : b.toNat = c.toNat := Nat.le_antisymm
                          (Nat.le_of_not_lt hcb) (Nat.le_of_not_lt hbc)
                        simp [this ▸ hab]
                  · simp only [hab, if_false] at hxy
                    by_cases hba : b.toNat < a.toNat
                    · simp [hba] at hxy
                    · simp only [hba, if_false] at hxy
                      have hab' : a.toNat = b.toNat := Nat.le_antisymm
                        (Nat.le_of_not_lt hba) (Nat.le_of_not_lt hab)
                      by_cases hbc : b.toNat < c.toNat
                      · simp [hab' ▸ hbc]
                      · simp only [hbc, if_false] at hyz
                        by_cases hcb : c.toNat < b.toNat
                        · simp [hcb] at hyz
                        · simp only [hcb, if_false] at hyz
                          have hbc' : b.toNat = c.toNat := Nat.le_antisymm
                            (Nat.le_of_not_lt hcb) (Nat.le_of_not_lt hbc)
                          have hac : ¬ a.toNat < c.toNat := by omega
                          have hca : ¬ c.toNat < a.toNat := by omega
                          simp [hac, hca]
                          exact ih bs cs hxy hyz
    exact key c.date.toList b.date.toList a.date.toList h2 h1⟩

/-- `process_prediction_file`: convert the new batch's odds tokens
(comma → point, then `float()`), read the prior combined snapshot when it
exists (a `FileNotFoundError` yields an empty DataFrame instead — the
bootstrap case), add an `accuracy` column of `NaN` to the new batch,
concatenate prior rows then new rows, sort by `date` descending, and restrict
to the canonical `columns_to_display` (which drops `accuracy` again). -/
def process_prediction_file (prior : Option (List PredRowAcc))
    (batch : List RawPredRow) : Except String (List PredRow) :=
  (parseBatch batch).map (fun newRows =>
    let priorRows := prior.getD []
    let tagged : List PredRowAcc := newRows.map (fun r => ⟨r, none⟩)
    let combined := priorRows ++ tagged
    (List.insertionSort dateDesc combined).map PredRowAcc.toPredRow)

/-! ## OutcomeReconciler (`update_betting_statistics`, first half) -/

/-- Int normalization of an outcome row (`pd.to_datetime`, unparseable →
`NaT` = `none`). -/
def normalizeOutcome (parseDate : String → Option Int) (g : OutcomeRaw) :
    OutcomeRow :=
  ⟨parseDate g.date, g.team, g.won⟩

/-- Int normalization of a snapshot row. -/
def normalizeSnapshotRow (parseDate : String → Option Int) (r : PredRow) :
    RecRow :=
  ⟨r.home_team, r.away_team, r.home_team_prob, r.odds_home, r.odds_away,
   r.result, parseDate r.date⟩

/-- pandas equality on possibly-missing dates: any comparison with `NaT` is
`False`, so two date cells match only when both are present and equal. -/
def dateMatches (a b : Option Int) : Bool :=
  match a, b with
  | some x, some y => x == y
  | _, _ => false

/-- The boolean mask of the reconciliation loop: the snapshot row's date
equals the outcome's date and the winning team is one of the row's teams. -/
def rowMatches (g : OutcomeRow) (r : RecRow) : Bool :=
  dateMatches r.date g.date &&
    (r.home_team == g.team || r.away_team == g.team)

/-- One iteration of the loop, on one snapshot row: the source sets
`winning_team = row.team if row.won == 1 else None` and guards the update
with `if winning_team:`, which in Python is false for `None` and for the
empty string, so the update fires only for `won == 1`, a nonempty team name,
and a matching row. -/
def applyOutcomeRow (r : RecRow) (g : OutcomeRow) : RecRow :=
  if g.won = 1 && !(g.team == "") && rowMatches g r then
    { r with result := some g.team }
  else r

/-- One iteration of the loop on the whole snapshot. -/
def applyOutcome (s : List RecRow) (g : OutcomeRow) : List RecRow :=
  s.map (fun r => applyOutcomeRow r g)

/-- The full reconciliation loop over the outcome rows, in file order. -/
def reconcile (s : List RecRow) (gs : List OutcomeRow) : List RecRow :=
  gs.foldl applyOutcome s

/-! ## AccuracyEngine (`update_betting_statistics`, second half) -/

/-- `astype(str)` on the `result` column: a present string is unchanged and
`NaN` prints as the literal string `"nan"`. -/
def resultToStr : Option String → String
  | some s => s
  | none => "nan"

/-- pandas comparison of a possibly-`NaN` numeric cell with a constant:
`NaN >= c` is `False`. -/
def probGe (p : Option ℚ) (c : ℚ) : Bool :=
  match p with
  | some q => c ≤ q
  | none => false

/-- `NaN < c` is `False`. -/
def probLt (p : Option ℚ) (c : ℚ) : Bool :=
  match p with
  | some q => q < c
  | none => false

/-- `NaN <= c` is `False`. -/
def probLe (p : Option ℚ) (c : ℚ) : Bool :=
  match p with
  | some q => q ≤ c
  | none => false

/-- `NaN > c` is `False`. -/
def probGt (p : Option ℚ) (c : ℚ) : Bool :=
  match p with
  | some q => c < q
  | none => false

/-- The correctness predicate and the 0/1 `accuracy` column, per row:
`home_team_correct = (prob >= 0.5) & (result == home_team)`,
`away_team_correct = (prob < 0.5) & (result == away_team)`,
`accuracy = (home_team_correct | away_team_correct).astype(int)`,
computed after `result` has gone through `astype(str)`. -/
def scoreRow (r : RecRow) : ScoredRow :=
  let res := resultToStr r.result
  let homeCorrect := probGe r.home_team_prob (mkRat 1 2) && (res == r.home_team)
  let awayCorrect := probLt r.home_team_prob (mkRat 1 2) && (res == r.away_team)
  ⟨r.home_team, r.away_team, r.home_team_prob, r.odds_home, r.odds_away,
   res, r.date, if homeCorrect || awayCorrect then 1 else 0⟩

/-- pandas `Series.mean()` on a series with no missing values: `NaN` (`none`)
on an empty series, else the arithmetic mean. -/
def seriesMean (l : List ℚ) : Option ℚ :=
  if l = [] then none else some (l.sum / (l.length : ℚ))

/-- The `accuracy` column of a scored snapshot. -/
def accuracyColumn (s : List ScoredRow) : List ℚ :=
  s.map ScoredRow.accuracy

/-- `overall_accuracy = season_2025_df.accuracy.mean()` — the mean over every
row of the scored snapshot. -/
def overall_accuracy (s : List ScoredRow) : Option ℚ :=
  seriesMean (accuracyColumn s)

/-- `subset_accuracy`: mean accuracy over rows with `home_team_prob <= 0.400`
(a `NaN` probability fails the comparison and is excluded). -/
def subset_accuracy (s : List ScoredRow) : Option ℚ :=
  seriesMean (accuracyColumn (s.filter (fun r => probLe r.home_team_prob (mkRat 2 5))))

/-- `subset_accuracy_home`: mean accuracy over rows with
`home_team_prob > 0.6`. -/
def subset_accuracy_home (s : List ScoredRow) : Option ℚ :=
  seriesMean (accuracyColumn (s.filter (fun r => probGt r.home_team_prob (mkRat 3 5))))

/-- `dropna()` on the scored DataFrame. At this point `home_team`,
`away_team` and `result` are strings produced by `astype(str)` (never missing
— an unresolved result is the string `"nan"`), `accuracy` is an `int`, and
the odds of every surviving ledger row are parsed floats; the only cells
`dropna` can see as missing are a non-numeric `home_team_prob` (`NaN`) and an
unparseable `date` (`NaT`). -/
def dropIncomplete (s : List ScoredRow) : List ScoredRow :=
  s.filter (fun r => r.home_team_prob.isSome && r.date.isSome)

/-- The three printed metrics of `update_betting_statistics`. -/
structure Metrics where
  overall : Option ℚ
  subsetLow : Option ℚ
  subsetHigh : Option ℚ
  deriving DecidableEq

/-- The result of `update_betting_statistics`: the fully scored snapshot (all
rows, before the final drop), the metrics, and the finalized snapshot that is
persisted (after `dropna`). -/
structure UpdateResult where
  scored : List ScoredRow
  metrics : Metrics
  finalized : List ScoredRow
  deriving DecidableEq

/-- `update_betting_statistics`: filter the daily games to the current
season, normalize both date columns, run the reconciliation loop, coerce
`home_team_prob` to numeric (already `Option ℚ` here), stringify `result`,
compute the per-row accuracy and the three mean metrics, drop incomplete
rows, and return what is persisted. -/
def update_betting_statistics (parseDate : String → Option Int)
    (combined : List PredRow) (games : List OutcomeRaw) (season : Nat) :
    UpdateResult :=
  let snap := combined.map (normalizeSnapshotRow parseDate)
  let gs := (games.filter (fun g => g.season == season)).map
              (normalizeOutcome parseDate)
  let recd := reconcile snap gs
  let scored := recd.map scoreRow
  ⟨scored,
   ⟨overall_accuracy scored, subset_accuracy scored, subset_accuracy_home scored⟩,
   dropIncomplete scored⟩

/-! ## Orchestrator (`main`) -/

/-- How a run ends. -/
inductive RunOutcome where
  | abortNoPrediction
  | malformedNumber
  | abortNoStatistics
  | done
  deriving DecidableEq

/-- Everything a run reads: the current date, the existence predicates of the
prediction and statistics directories, the contents of the artifacts at each
date, the prior combined snapshot keyed by date (if present), the external
date parser, and the season identifier. -/
structure Env where
  today : Int
  predFs : Int → Bool
  statFs : Int → Bool
  predContent : Int → List RawPredRow
  combined : Int → Option (List PredRowAcc)
  statContent : Int → List OutcomeRaw
  parseDate : String → Option Int
  currentSeason : Nat
  predDir : String
  statDir : String

/-- The filename stem shared by every combined snapshot. -/
def combinedStem : String := "combined_nba_predictions_acc_"

/-- The path the final snapshot is written to:
`combined_nba_predictions_acc_{today}.csv` in the prediction directory. -/
def savePath (env : Env) : SnapshotPath :=
  ⟨env.predDir, combinedStem, env.today⟩

/-- The path the prior combined snapshot is read from:
`combined_nba_predictions_acc_{last_prediction}.csv`. -/
def combinedReadPath (env : Env) (lastPrediction : Int) : SnapshotPath :=
  ⟨env.predDir, combinedStem, lastPrediction⟩

/-- `main`: locate the newest prediction file starting from yesterday; when
found, merge it into the ledger (an uncaught `ValueError` from a malformed
odds token ends the run); locate the newest statistics file; when found,
reconcile, score and persist under today's date. The second component lists
every file write the run performs. -/
def main (env : Env) : RunOutcome × List (SnapshotPath × List ScoredRow) :=
  match find_most_recent_prediction_file env.predFs (env.today - 1) with
  | none => (RunOutcome.abortNoPrediction, [])
  | some lp =>
      match process_prediction_file (env.combined lp) (env.predContent lp) with
      | Except.error _ => (RunOutcome.malformedNumber, [])
      | Except.ok combinedRows =>
          match find_file_in_date_range env.statFs (env.today - 1) with
          | none => (RunOutcome.abortNoStatistics, [])
          | some md =>
              (RunOutcome.done,
               [(savePath env,
                 (update_betting_statistics env.parseDate combinedRows
                   (env.statContent md) env.currentSeason).finalized)])

/-! ## Spec-side definition, for the refinement comparison in C2 -/

/-- The spec's words for `overall_accuracy` (§4.4): the mean of `accuracy`
over rows with a resolved, numeric basis, i.e. rows whose probability is
numeric and whose result is not the unresolved marker. Written from the
spec, to be compared with the code's `overall_accuracy`. -/
def spec_overall_accuracy (s : List ScoredRow) : Option ℚ :=
  seriesMean (accuracyColumn
    (s.filter (fun r => r.home_team_prob.isSome && !(r.result == "nan"))))

/-! ## Derived views used by the proofs -/

/-- The firing condition of one loop iteration on one row: the outcome has
`won == 1`, its team name is truthy (nonempty — this is the `if winning_team:`
guard), and the mask selects the row. -/
def hits (g : OutcomeRow) (r : RecRow) : Bool :=
  (g.won == 1) && !(g.team == "") && rowMatches g r

/-- The whole reconciliation loop, seen from one snapshot row. -/
def applyRowAll (r : RecRow) (gs : List OutcomeRow) : RecRow :=
  gs.foldl applyOutcomeRow r

/-- The value of one row's `result` cell after the loop: each hitting outcome
overwrites it with its team, in file order. -/
def resultAfter (r : RecRow) (gs : List OutcomeRow) (init : Option String) :
    Option String :=
  gs.foldl (fun acc g => if hits g r then some g.team else acc) init

/-- The date-descending order on canonical rows (the projection of
`dateDesc` along the column selection). -/
def dateDescP (a b : PredRow) : Prop := strLe b.date a.date = true

/-- A raw row at least one of whose odds tokens fails conversion. -/
def isMalformed (r : RawPredRow) : Bool :=
  (pyFloat (commaToPoint r.odds1)).isNone || (pyFloat (commaToPoint r.odds2)).isNone

/-- A scored row that `dropna` keeps: every cell present (the string columns
and `accuracy` are never missing at this stage, see `dropIncomplete`). -/
def isComplete (r : ScoredRow) : Bool :=
  r.home_team_prob.isSome && r.date.isSome

/-! ## General lemmas about the backward search -/

theorem searchBack_eq_none (fs : Int → Bool) (ref : Int) :
    ∀ (rem db : Nat),
      (∀ k : Nat, db ≤ k → k < db + rem → fs (ref - (k : Int)) = false) →
      searchBack fs ref db rem = none := by
  intro rem
  induction rem with
  | zero => intro db _; rfl
  | succ n ih =>
      intro db hall
      have h0 : fs (ref - (db : Int)) = false := hall db le_rfl (by omega)
      simp only [searchBack, h0, Bool.false_eq_true, if_false]
      exact ih (db + 1) (fun k hk1 hk2 => hall k (by omega) (by omega))

theorem searchBack_none_imp (fs : Int → Bool) (ref : Int) :
    ∀ (rem db : Nat), searchBack fs ref db rem = none →
      ∀ k : Nat, db ≤ k → k < db + rem → fs (ref - (k : Int)) = false := by
  intro rem
  induction rem with
  | zero => intro db _ k h1 h2; omega
  | succ n ih =>
      intro db hnone k h1 h2
      by_cases h0 : fs (ref - (db : Int)) = true
      · simp [searchBack, h0] at hnone
      · have hrest := by
          simpa only [searchBack, h0, if_false] using hnone
        rcases Nat.eq_or_lt_of_le h1 with rfl | hlt
        · exact Bool.not_eq_true _ ▸ (by simpa using h0)
        · exact ih (db + 1) hrest k (by omega) (by omega)

theorem searchBack_finds (fs : Int → Bool) (ref : Int) :
    ∀ (rem db k : Nat), db ≤ k → k < db + rem →
      fs (ref - (k : Int)) = true →
      (∀ j : Nat, db ≤ j → j < k → fs (ref - (j : Int)) = false) →
      searchBack fs ref db rem = some (ref - (k : Int)) := by
  intro rem
  induction rem with
  | zero => intro db k h1 h2; omega
  | succ n ih =>
      intro db k h1 h2 hk hmin
      rcases Nat.eq_or_lt_of_le h1 with rfl | hlt
      · simp [searchBack, hk]
      · have h0 : fs (ref - (db : Int)) = false := hmin db le_rfl hlt
        simp only [searchBack, h0, Bool.false_eq_true, if_false]
        exact ih (db + 1) k hlt (by omega) hk
          (fun j hj1 hj2 => hmin j (by omega) hj2)

theorem searchBack_sound (fs : Int → Bool) (ref : Int) :
    ∀ (rem db : Nat) (d : Int), searchBack fs ref db rem = some d →
      ∃ k : Nat, db ≤ k ∧ k < db + rem ∧ d = ref - (k : Int) ∧
        fs d = true ∧
        ∀ j : Nat, db ≤ j → j < k → fs (ref - (j : Int)) = false := by
  intro rem
  induction rem with
  | zero => intro db d h; exact absurd h (by simp [searchBack])
  | succ n ih =>
      intro db d h
      by_cases h0 : fs (ref - (db : Int)) = true
      · have hd : d = ref - (db : Int) := by
          simpa [searchBack, h0] using h.symm
        exact ⟨db, le_rfl, by omega, hd, hd ▸ h0, fun j hj1 hj2 => by omega⟩
      · have hrest : searchBack fs ref (db + 1) n = some d := by
          simpa only [searchBack, h0, if_false] using h
        obtain ⟨k, hk1, hk2, hk3, hk4, hk5⟩ := ih (db + 1) d hrest
        refine ⟨k, by omega, by omega, hk3, hk4, fun j hj1 hj2 => ?_⟩
        rcases Nat.eq_or_lt_of_le hj1 with rfl | hjlt
        · exact Bool.not_eq_true _ ▸ (by simpa using h0)
        · exact hk5 j (by omega) hj2

theorem searchBack_congr (fs fs' : Int → Bool) (ref : Int) :
    ∀ (rem db : Nat),
      (∀ k : Nat, db ≤ k → k < db + rem → fs (ref - (k : Int)) = fs' (ref - (k : Int))) →
      searchBack fs ref db rem = searchBack fs' ref db rem := by
  intro rem
  induction rem with
  | zero => intro db _; rfl
  | succ n ih =>
      intro db hagree
      have h0 : fs (ref - (db : Int)) = fs' (ref - (db : Int)) :=
        hagree db le_rfl (by omega)
      simp only [searchBack, h0]
      by_cases h1 : fs' (ref - (db : Int)) = true
      · simp [h1]
      · simp only [h1, Bool.false_eq_true, if_false]
        exact ih (db + 1) (fun k hk1 hk2 => hagree k (by omega) (by omega))

/-! ## General lemmas about means -/

theorem sum_of_all_eq (c : ℚ) :
    ∀ l : List ℚ, (∀ x ∈ l, x = c) → l.sum = (l.length : ℚ) * c := by
  intro l
  induction l with
  | nil => simp
  | cons a as ih =>
      intro h
      have ha : a = c := h a (List.mem_cons_self a as)
      have hr := ih (fun x hx => h x (List.mem_cons_of_mem a hx))
      simp only [List.sum_cons, List.length_cons, ha, hr]
      push_cast
      ring

theorem seriesMean_bounds (l : List ℚ) (hne : l ≠ [])
    (hb : ∀ x ∈ l, 0 ≤ x ∧ x ≤ 1) :
    ∃ q, seriesMean l = some q ∧ 0 ≤ q ∧ q ≤ 1 := by
  have hlen : (0 : ℚ) < (l.length : ℚ) := by
    have := List.length_pos.2 hne
    exact_mod_cast this
  refine ⟨l.sum / (l.length : ℚ), by simp [seriesMean, hne], ?_, ?_⟩
  · apply div_nonneg _ (le_of_lt hlen)
    exact List.sum_nonneg (fun x hx => (hb x hx).1)
  · rw [div_le_one hlen]
    have := List.sum_le_card_nsmul l 1 (fun x hx => (hb x hx).2)
    simpa using this

theorem seriesMean_all_eq (l : List ℚ) (c : ℚ) (hne : l ≠ [])
    (h : ∀ x ∈ l, x = c) : seriesMean l = some c := by
  have hlen : ((l.length : ℚ)) ≠ 0 := by
    have := List.length_pos.2 hne
    exact_mod_cast Nat.pos_iff_ne_zero.mp this
  simp only [seriesMean, hne, if_false, sum_of_all_eq c l h]
  rw [mul_comm, mul_div_assoc, div_self hlen, mul_one]

/-! ## General lemmas about the reconciliation loop -/

theorem applyOutcomeRow_eq (r : RecRow) (g : OutcomeRow) :
    applyOutcomeRow r g =
      if hits g r then { r with result := some g.team } else r := by
  simp [applyOutcomeRow, hits]

theorem applyOutcomeRow_frame (r : RecRow) (g : OutcomeRow) :
    (applyOutcomeRow r g).home_team = r.home_team ∧
    (applyOutcomeRow r g).away_team = r.away_team ∧
    (applyOutcomeRow r g).home_team_prob = r.home_team_prob ∧
    (applyOutcomeRow r g).odds_home = r.odds_home ∧
    (applyOutcomeRow r g).odds_away = r.odds_away ∧
    (applyOutcomeRow r g).date = r.date := by
  rw [applyOutcomeRow_eq]
  by_cases h : hits g r = true <;> simp [h]

theorem hits_congr (g : OutcomeRow) {r r' : RecRow}
    (h1 : r'.home_team = r.home_team) (h2 : r'.away_team = r.away_team)
    (h3 : r'.date = r.date) : hits g r' = hits g r := by
  simp [hits, rowMatches, h1, h2, h3]

theorem hits_applyOutcomeRow (g g' : OutcomeRow) (r : RecRow) :
    hits g (applyOutcomeRow r g') = hits g r := by
  obtain ⟨h1, h2, _, _, _, h6⟩ := applyOutcomeRow_frame r g'
  exact hits_congr g h1 h2 h6

theorem applyRowAll_frame (gs : List OutcomeRow) :
    ∀ r : RecRow,
      (applyRowAll r gs).home_team = r.home_team ∧
      (applyRowAll r gs).away_team = r.away_team ∧
      (applyRowAll r gs).home_team_prob = r.home_team_prob ∧
      (applyRowAll r gs).odds_home = r.odds_home ∧
      (applyRowAll r gs).odds_away = r.odds_away ∧
      (applyRowAll r gs).date = r.date := by
  induction gs with
  | nil => intro r; simp [applyRowAll]
  | cons g gs ih =>
      intro r
      have hstep := applyOutcomeRow_frame r g
      have hrest := ih (applyOutcomeRow r g)
      simp only [applyRowAll, List.foldl_cons] at hrest ⊢
      exact ⟨hrest.1.trans hstep.1, hrest.2.1.trans hstep.2.1,
        hrest.2.2.1.trans hstep.2.2.1, hrest.2.2.2.1.trans hstep.2.2.2.1,
        hrest.2.2.2.2.1.trans hstep.2.2.2.2.1,
        hrest.2.2.2.2.2.trans hstep.2.2.2.2.2⟩

theorem resultAfter_congr {r r' : RecRow}
    (hsame : ∀ g : OutcomeRow, hits g r' = hits g r) :
    ∀ (gs : List OutcomeRow) (init : Option String),
      resultAfter r' gs init = resultAfter r gs init := by
  intro gs
  induction gs with
  | nil => intro init; rfl
  | cons g gs ih =>
      intro init
      simp only [resultAfter, List.foldl_cons] at ih ⊢
      rw [hsame g]
      exact ih _

theorem applyRowAll_result (gs : List OutcomeRow) :
    ∀ r : RecRow, (applyRowAll r gs).result = resultAfter r gs r.result := by
  induction gs with
  | nil => intro r; rfl
  | cons g gs ih =>
      intro r
      simp only [applyRowAll, List.foldl_cons, resultAfter] at ih ⊢
      rw [ih (applyOutcomeRow r g)]
      have hcongr := resultAfter_congr
        (fun g' => hits_applyOutcomeRow g' g r) gs
      simp only [resultAfter] at hcongr
      rw [hcongr]
      congr 1
      rw [applyOutcomeRow_eq]
      by_cases h : hits g r = true <;> simp [h]

theorem resultAfter_append (r : RecRow) (gs1 gs2 : List OutcomeRow)
    (init : Option String) :
    resultAfter r (gs1 ++ gs2) init = resultAfter r gs2 (resultAfter r gs1 init) := by
  simp [resultAfter, List.foldl_append]

theorem resultAfter_no_hit (r : RecRow) :
    ∀ (gs : List OutcomeRow) (init : Option String),
      (∀ g ∈ gs, hits g r = false) → resultAfter r gs init = init := by
  intro gs
  induction gs with
  | nil => intro init _; rfl
  | cons g gs ih =>
      intro init h
      have h0 : hits g r = false := h g (List.mem_cons_self g gs)
      simp only [resultAfter, List.foldl_cons, h0, Bool.false_eq_true, if_false]
      exact ih init (fun g' hg' => h g' (List.mem_cons_of_mem g hg'))

theorem resultAfter_cases (r : RecRow) :
    ∀ (gs : List OutcomeRow) (init : Option String) (t : String),
      resultAfter r gs init = some t →
      init = some t ∨ ∃ g ∈ gs, hits g r = true ∧ g.team = t := by
  intro gs
  induction gs with
  | nil => intro init t h; exact Or.inl h
  | cons g gs ih =>
      intro init t h
      simp only [resultAfter, List.foldl_cons] at h
      by_cases h0 : hits g r = true
      · rcases ih _ t (by simpa only [resultAfter, h0, if_true] using h) with h1 | ⟨g', hg', hh', ht'⟩
        · exact Or.inr ⟨g, List.mem_cons_self g gs, h0, by injection h1⟩
        · exact Or.inr ⟨g', List.mem_cons_of_mem g hg', hh', ht'⟩
      · rcases ih _ t (by simpa only [resultAfter, h0, if_false] using h) with h1 | ⟨g', hg', hh', ht'⟩
        · exact Or.inl h1
        · exact Or.inr ⟨g', List.mem_cons_of_mem g hg', hh', ht'⟩

theorem resultAfter_stable (r : RecRow) (t : String) :
    ∀ gs : List OutcomeRow, (∀ g ∈ gs, hits g r = true → g.team = t) →
      resultAfter r gs (some t) = some t := by
  intro gs
  induction gs with
  | nil => intro _; rfl
  | cons g gs ih =>
      intro h
      simp only [resultAfter, List.foldl_cons]
      by_cases h0 : hits g r = true
      · rw [if_pos h0, h g (List.mem_cons_self g gs) h0]
        exact ih (fun g' hg' => h g' (List.mem_cons_of_mem g hg'))
      · rw [if_neg h0]
        exact ih (fun g' hg' => h g' (List.mem_cons_of_mem g hg'))

theorem resultAfter_hit (r : RecRow) :
    ∀ (gs : List OutcomeRow) (init : Option String),
      (∃ g ∈ gs, hits g r = true) →
      ∃ g ∈ gs, hits g r = true ∧ resultAfter r gs init = some g.team := by
  intro gs
  induction gs with
  | nil => intro init h; exact absurd h (by simp)
  | cons g gs ih =>
      intro init h
      simp only [resultAfter, List.foldl_cons]
      by_cases hrest : ∃ g' ∈ gs, hits g' r = true
      · obtain ⟨g', hg', hh', heq⟩ := ih (if hits g r then some g.team else init) hrest
        exact ⟨g', List.mem_cons_of_mem g hg', hh', heq⟩
      · have h0 : hits g r = true := by
          rcases h with ⟨g', hg', hh'⟩
          rcases List.mem_cons.mp hg' with rfl | hmem
          · exact hh'
          · exact absurd ⟨g', hmem, hh'⟩ hrest
        refine ⟨g, List.mem_cons_self g gs, h0, ?_⟩
        rw [if_pos h0]
        exact resultAfter_no_hit r gs _
          (fun g' hg' => by
            by_contra hc
            exact hrest ⟨g', hg', by simpa using hc⟩)

theorem reconcile_eq_map (gs : List OutcomeRow) :
    ∀ s : List RecRow, reconcile s gs = s.map (fun r => applyRowAll r gs) := by
  induction gs with
  | nil => intro s; simp [reconcile, applyRowAll]
  | cons g gs ih =>
      intro s
      simp only [reconcile, List.foldl_cons] at ih ⊢
      rw [ih (applyOutcome s g)]
      simp [applyOutcome, List.map_map, applyRowAll, Function.comp]

theorem applyOutcomeRow_idem (r : RecRow) (g : OutcomeRow) :
    applyOutcomeRow (applyOutcomeRow r g) g = applyOutcomeRow r g := by
  by_cases h : hits g r = true
  · rw [applyOutcomeRow_eq r g, if_pos h]
    rw [applyOutcomeRow_eq]
    have hsame : hits g { r with result := some g.team } = hits g r := by
      simp [hits, rowMatches]
    rw [hsame, if_pos h]
  · rw [applyOutcomeRow_eq r g, if_neg h, applyOutcomeRow_eq, if_neg h]

theorem applyRowAll_perm (r : RecRow) {gs1 gs2 : List OutcomeRow}
    (hp : gs1.Perm gs2)
    (hc : ∀ g1 ∈ gs1, ∀ g2 ∈ gs1, hits g1 r = true → hits g2 r = true →
      g1.team = g2.team) :
    applyRowAll r gs1 = applyRowAll r gs2 := by
  have hf1 := applyRowAll_frame gs1 r
  have hf2 := applyRowAll_frame gs2 r
  have hres : (applyRowAll r gs1).result = (applyRowAll r gs2).result := by
    rw [applyRowAll_result gs1 r, applyRowAll_result gs2 r]
    simp only [resultAfter]
    apply hp.foldl_eq'
    intro g1 hg1 g2 hg2 acc
    by_cases h1 : hits g1 r = true <;> by_cases h2 : hits g2 r = true <;>
      simp only [h1, h2, if_true, if_false, Bool.false_eq_true]
    exact congrArg some (hc g2 hg2 g1 hg1 h2 h1)
  exact RecRow.ext (hf1.1.trans hf2.1.symm) (hf1.2.1.trans hf2.2.1.symm)
    (hf1.2.2.1.trans hf2.2.2.1.symm) (hf1.2.2.2.1.trans hf2.2.2.2.1.symm)
    (hf1.2.2.2.2.1.trans hf2.2.2.2.2.1.symm) hres
    (hf1.2.2.2.2.2.trans hf2.2.2.2.2.2.symm)

/-! ## General lemmas about scoring -/

theorem scoreRow_accuracy_cases (r : RecRow) :
    (scoreRow r).accuracy = 0 ∨ (scoreRow r).accuracy = 1 := by
  simp only [scoreRow]
  by_cases h : (probGe r.home_team_prob (mkRat 1 2) &&
      (resultToStr r.result == r.home_team) ||
      probLt r.home_team_prob (mkRat 1 2) &&
      (resultToStr r.result == r.away_team)) = true
  · right; simp [h]
  · left; simp [h]

theorem scoreRow_accuracy_eq_one_iff (r : RecRow) :
    (scoreRow r).accuracy = 1 ↔
      (probGe r.home_team_prob (mkRat 1 2) &&
        (resultToStr r.result == r.home_team) ||
        probLt r.home_team_prob (mkRat 1 2) &&
        (resultToStr r.result == r.away_team)) = true := by
  simp only [scoreRow]
  by_cases h : (probGe r.home_team_prob (mkRat 1 2) &&
      (resultToStr r.result == r.home_team) ||
      probLt r.home_team_prob (mkRat 1 2) &&
      (resultToStr r.result == r.away_team)) = true
  · simp [h]
  · simp [h]

theorem mkRat_half : (mkRat 1 2 : ℚ) = 0.5 := by
  rw [Rat.mkRat_eq_div]
  norm_num

theorem mkRat_twoFifths : (mkRat 2 5 : ℚ) = 0.4 := by
  rw [Rat.mkRat_eq_div]
  norm_num

theorem mkRat_threeFifths : (mkRat 3 5 : ℚ) = 0.6 := by
  rw [Rat.mkRat_eq_div]
  norm_num

theorem update_scored_eq (pd : String → Option Int) (c : List PredRow)
    (gs : List OutcomeRaw) (n : Nat) :
    (update_betting_statistics pd c gs n).scored =
      (reconcile (c.map (normalizeSnapshotRow pd))
        ((gs.filter (fun g => g.season == n)).map (normalizeOutcome pd))).map
          scoreRow := rfl

theorem update_scored_length (pd : String → Option Int) (c : List PredRow)
    (gs : List OutcomeRaw) (n : Nat) :
    (update_betting_statistics pd c gs n).scored.length = c.length := by
  rw [update_scored_eq, reconcile_eq_map]
  simp

theorem update_scored_mem (pd : String → Option Int) (c : List PredRow)
    (gs : List OutcomeRaw) (n : Nat) (r : ScoredRow)
    (h : r ∈ (update_betting_statistics pd c gs n).scored) :
    ∃ x : RecRow, r = scoreRow x := by
  rw [update_scored_eq] at h
  obtain ⟨x, _, hx⟩ := List.mem_map.mp h
  exact ⟨x, hx.symm⟩

theorem once_set_stable (r : RecRow) (gs1 gs2 : List OutcomeRow) (t : String)
    (hcompat : ∀ g1 ∈ gs1 ++ gs2, ∀ g2 ∈ gs1 ++ gs2,
      hits g1 r = true → hits g2 r = true → g1.team = g2.team)
    (hset : (applyRowAll r gs1).result = some t)
    (hchanged : (applyRowAll r gs1).result ≠ r.result) :
    (applyRowAll r (gs1 ++ gs2)).result = some t := by
  rw [applyRowAll_result] at hset hchanged ⊢
  rw [resultAfter_append, hset]
  rcases resultAfter_cases r gs1 r.result t hset with hinit | ⟨g0, hg0, hh0, ht0⟩
  · exact absurd (hset.trans hinit.symm) hchanged
  · apply resultAfter_stable
    intro g hg hh
    rw [← ht0]
    exact hcompat g (List.mem_append_right gs1 hg) g0
      (List.mem_append_left gs2 hg0) hh hh0

/-- `Metrics.overall` of an update is the code's `overall_accuracy` of the
scored snapshot. -/
theorem update_overall_eq (pd : String → Option Int) (c : List PredRow)
    (gs : List OutcomeRaw) (n : Nat) :
    (update_betting_statistics pd c gs n).metrics.overall =
      overall_accuracy (update_betting_statistics pd c gs n).scored := rfl

/-- `Metrics.subsetLow` of an update is the code's `subset_accuracy`. -/
theorem update_subsetLow_eq (pd : String → Option Int) (c : List PredRow)
    (gs : List OutcomeRaw) (n : Nat) :
    (update_betting_statistics pd c gs n).metrics.subsetLow =
      subset_accuracy (update_betting_statistics pd c gs n).scored := rfl

/-- `Metrics.subsetHigh` of an update is the code's `subset_accuracy_home`. -/
theorem update_subsetHigh_eq (pd : String → Option Int) (c : List PredRow)
    (gs : List OutcomeRaw) (n : Nat) :
    (update_betting_statistics pd c gs n).metrics.subsetHigh =
      subset_accuracy_home (update_betting_statistics pd c gs n).scored := rfl

/-! ## Claims -/

/-- C1 (amended). Per-row scoring: a reconciled row with a numeric
probability and a resolved result is scored correct (`accuracy = 1`) exactly
when (`home_team_prob >= 0.5` and `result` equals `home_team`) or
(`home_team_prob < 0.5` and `result` equals `away_team`); `accuracy` is
always 1 if correct and 0 otherwise; a row whose `result` is still the
unresolved marker is scored 0 provided its team-name columns are not the
literal marker string `"nan"` (the amendment forced by `C1_counterexample`);
and every row, resolved or not, is still present in the scored snapshot —
one scored row per input row — until the final drop step. -/
theorem C1_per_row_scoring (r : RecRow) :
    ((scoreRow r).accuracy = 0 ∨ (scoreRow r).accuracy = 1) ∧
    (∀ p : ℚ, ∀ s : String, r.home_team_prob = some p → r.result = some s →
      ((scoreRow r).accuracy = 1 ↔
        ((0.5 ≤ p ∧ s = r.home_team) ∨ (p < 0.5 ∧ s = r.away_team)))) ∧
    (r.result = none → ¬r.home_team = "nan" → ¬r.away_team = "nan" →
      (scoreRow r).accuracy = 0) ∧
    (∀ (pd : String → Option Int) (c : List PredRow) (gs : List OutcomeRaw)
        (n : Nat),
      (update_betting_statistics pd c gs n).scored.length = c.length) := by
  refine ⟨scoreRow_accuracy_cases r, ?_, ?_,
    fun pd c gs n => update_scored_length pd c gs n⟩
  · intro p s hp hs
    rw [scoreRow_accuracy_eq_one_iff]
    simp [probGe, probLt, hp, hs, resultToStr, mkRat_half]
  · intro hres h1 h2
    have e1 : (resultToStr r.result == r.home_team) = false := by
      rw [hres]
      exact beq_eq_false_iff_ne.mpr (fun hh => h1 hh.symm)
    have e2 : (resultToStr r.result == r.away_team) = false := by
      rw [hres]
      exact beq_eq_false_iff_ne.mpr (fun hh => h2 hh.symm)
    simp [scoreRow, e1, e2]

/-- C1 witness: the per-row predicate at a concrete resolved, correct row. -/
theorem C1_per_row_scoring_witness :
    (scoreRow ⟨"A", "B", some (mkRat 7 10), mkRat 37 20, mkRat 2 1,
      some "A", some 0⟩).accuracy = 1 :=
  ((C1_per_row_scoring _).2.1 (mkRat 7 10) "A" rfl rfl).mpr
    (Or.inl ⟨by rw [Rat.mkRat_eq_div]; norm_num, rfl⟩)

/-- C1 counterexample: the claim says a row whose `result` is still the
unresolved marker is never scored correct, but a row whose `home_team` cell
is itself missing (pandas `NaN`, stringified to `"nan"` by `astype(str)`)
compares equal to the stringified unresolved marker, so the code scores it
correct (`accuracy = 1`) although its `result` is unresolved. -/
theorem C1_counterexample :
    (⟨"nan", "B", some (mkRat 7 10), mkRat 37 20, mkRat 2 1, none,
        some 0⟩ : RecRow).result = none ∧
    (scoreRow ⟨"nan", "B", some (mkRat 7 10), mkRat 37 20, mkRat 2 1, none,
        some 0⟩).accuracy = 1 := by
  decide

/-- C2 (amended). Aggregate metrics: `overall_accuracy` is the mean of
`accuracy` over ALL rows of the scored snapshot (unresolved rows count with
accuracy 0 — the amendment forced by `C2_counterexample`); it lies in [0,1],
is 1.0 when every scored row is correct and 0.0 when none is; the subset
metrics are the means of `accuracy` over rows with `home_team_prob <= 0.4`
(respectively `> 0.6`); and a subset accuracy over an empty subset is `NaN`
(`none`), distinguishable from `0.0`. -/
theorem C2_aggregate_metrics (pd : String → Option Int) (c : List PredRow)
    (gs : List OutcomeRaw) (n : Nat) (u : UpdateResult)
    (hu : u = update_betting_statistics pd c gs n) :
    (c ≠ [] → ∃ q : ℚ, u.metrics.overall = some q ∧ 0 ≤ q ∧ q ≤ 1) ∧
    (c ≠ [] → (∀ r ∈ u.scored, r.accuracy = 1) → u.metrics.overall = some 1) ∧
    (c ≠ [] → (∀ r ∈ u.scored, r.accuracy = 0) → u.metrics.overall = some 0) ∧
    (u.metrics.subsetLow = seriesMean (accuracyColumn (u.scored.filter
      (fun r => match r.home_team_prob with
                | some p => decide (p ≤ 0.4)
                | none => false)))) ∧
    (u.metrics.subsetHigh = seriesMean (accuracyColumn (u.scored.filter
      (fun r => match r.home_team_prob with
                | some p => decide ((0.6 : ℚ) < p)
                | none => false)))) ∧
    (u.scored.filter (fun r => probLe r.home_team_prob (mkRat 2 5)) = [] →
      u.metrics.subsetLow = none) ∧
    (u.scored.filter (fun r => probGt r.home_team_prob (mkRat 3 5)) = [] →
      u.metrics.subsetHigh = none) ∧
    ((none : Option ℚ) ≠ some (0 : ℚ)) := by
  subst hu
  have hmem : ∀ x ∈ accuracyColumn (update_betting_statistics pd c gs n).scored,
      0 ≤ x ∧ x ≤ 1 := by
    intro x hx
    obtain ⟨r, hr, hxr⟩ := List.mem_map.mp hx
    obtain ⟨y, hy⟩ := update_scored_mem pd c gs n r hr
    rcases hy ▸ scoreRow_accuracy_cases y with h0 | h1
    · rw [← hxr, h0]; norm_num
    · rw [← hxr, h1]; norm_num
  have hne : c ≠ [] →
      accuracyColumn (update_betting_statistics pd c gs n).scored ≠ [] := by
    intro hc hnil
    have h1 : (accuracyColumn (update_betting_statistics pd c gs n).scored).length
        = c.length := by
      simp [accuracyColumn, update_scored_length]
    rw [hnil] at h1
    exact hc (List.length_eq_zero.mp h1.symm)
  refine ⟨?_, ?_, ?_, ?_, ?_, ?_, ?_, by simp⟩
  · intro hc
    rw [update_overall_eq]
    exact seriesMean_bounds _ (hne hc) hmem
  · intro hc hall
    rw [update_overall_eq]
    apply seriesMean_all_eq _ _ (hne hc)
    intro x hx
    obtain ⟨r, hr, hxr⟩ := List.mem_map.mp hx
    rw [← hxr]
    exact hall r hr
  · intro hc hall
    rw [update_overall_eq]
    apply seriesMean_all_eq _ _ (hne hc)
    intro x hx
    obtain ⟨r, hr, hxr⟩ := List.mem_map.mp hx
    rw [← hxr]
    exact hall r hr
  · rw [update_subsetLow_eq]
    unfold subset_accuracy
    congr 2
    apply List.filter_congr
    intro r _
    cases hp : r.home_team_prob <;> simp [probLe, hp, mkRat_twoFifths]
  · rw [update_subsetHigh_eq]
    unfold subset_accuracy_home
    congr 2
    apply List.filter_congr
    intro r _
    cases hp : r.home_team_prob <;> simp [probGt, hp, mkRat_threeFifths]
  · intro hemp
    rw [update_subsetLow_eq]
    unfold subset_accuracy
    rw [hemp]
    rfl
  · intro hemp
    rw [update_subsetHigh_eq]
    unfold subset_accuracy_home
    rw [hemp]
    rfl

/-- C2 witness: the metrics at a one-row snapshot whose row is resolved and
correct. -/
theorem C2_aggregate_metrics_witness :
    (update_betting_statistics (fun s => if s = "d" then some 0 else none)
      [⟨"A", "B", some (mkRat 7 10), mkRat 2 1, mkRat 3 1, none, "d"⟩]
      [⟨"d", "A", 1, 25⟩] 25).metrics.overall = some 1 :=
  (C2_aggregate_metrics (fun s => if s = "d" then some 0 else none)
      [⟨"A", "B", some (mkRat 7 10), mkRat 2 1, mkRat 3 1, none, "d"⟩]
      [⟨"d", "A", 1, 25⟩] 25 _ rfl).2.1 (by simp) (by decide)

/-- C2 counterexample: `overall_accuracy` is NOT the mean over rows with a
resolved, numeric basis. With one resolved correct row and one unresolved
row, the rows with a resolved basis are all correct (their mean is 1.0), yet
the code reports 1/2, because the unresolved row is counted with accuracy 0. -/
theorem C2_counterexample :
    spec_overall_accuracy (update_betting_statistics
        (fun s => if s = "d" then some 0 else if s = "e" then some 1 else none)
        [⟨"A", "B", some (mkRat 7 10), mkRat 2 1, mkRat 3 1, none, "d"⟩,
         ⟨"C", "E", some (mkRat 7 10), mkRat 2 1, mkRat 3 1, none, "e"⟩]
        [⟨"d", "A", 1, 25⟩] 25).scored = some 1 ∧
    overall_accuracy (update_betting_statistics
        (fun s => if s = "d" then some 0 else if s = "e" then some 1 else none)
        [⟨"A", "B", some (mkRat 7 10), mkRat 2 1, mkRat 3 1, none, "d"⟩,
         ⟨"C", "E", some (mkRat 7 10), mkRat 2 1, mkRat 3 1, none, "e"⟩]
        [⟨"d", "A", 1, 25⟩] 25).scored = some (mkRat 1 2) ∧
    (some (mkRat 1 2) : Option ℚ) ≠ some 1 := by
  have hs : (update_betting_statistics
      (fun s => if s = "d" then some 0 else if s = "e" then some 1 else none)
      [⟨"A", "B", some (mkRat 7 10), mkRat 2 1, mkRat 3 1, none, "d"⟩,
       ⟨"C", "E", some (mkRat 7 10), mkRat 2 1, mkRat 3 1, none, "e"⟩]
      [⟨"d", "A", 1, 25⟩] 25).scored =
      [⟨"A", "B", some (mkRat 7 10), mkRat 2 1, mkRat 3 1, "A", some 0, 1⟩,
       ⟨"C", "E", some (mkRat 7 10), mkRat 2 1, mkRat 3 1, "nan", some 1, 0⟩] := by
    decide
  refine ⟨?_, ?_, by decide⟩
  · rw [hs]
    have hf : ([⟨"A", "B", some (mkRat 7 10), mkRat 2 1, mkRat 3 1, "A", some 0, 1⟩,
        ⟨"C", "E", some (mkRat 7 10), mkRat 2 1, mkRat 3 1, "nan", some 1,
          0⟩] : List ScoredRow).filter
        (fun r => r.home_team_prob.isSome && !(r.result == "nan")) =
        [⟨"A", "B", some (mkRat 7 10), mkRat 2 1, mkRat 3 1, "A", some 0, 1⟩] := by
      decide
    unfold spec_overall_accuracy
    rw [hf]
    simp [accuracyColumn, seriesMean]
  · rw [hs]
    simp [overall_accuracy, accuracyColumn, seriesMean, Rat.mkRat_eq_div]

/-- C3 (amended). Finalization and persistence: the final `dropna` drops
exactly the rows with a missing numeric cell — a non-numeric
`home_team_prob` or an unparseable date — so those never reach the persisted
snapshot; but a row whose `result` is still the unresolved marker DOES
survive it, because `astype(str)` already turned that marker into the plain
string "nan" (the amendment forced by `C3_counterexample`). The path the
final snapshot is written to (keyed by today) is distinct from the path the
input snapshot was read from (keyed by the located prediction date, which is
at most yesterday), so no snapshot is overwritten in place. -/
theorem C3_finalize_and_path (pd : String → Option Int) (c : List PredRow)
    (gs : List OutcomeRaw) (n : Nat) (r : ScoredRow) :
    (r ∈ (update_betting_statistics pd c gs n).finalized ↔
      (r ∈ (update_betting_statistics pd c gs n).scored ∧
        r.home_team_prob.isSome = true ∧ r.date.isSome = true)) ∧
    (∀ (env : Env) (lp : Int),
      find_most_recent_prediction_file env.predFs (env.today - 1) = some lp →
      savePath env ≠ combinedReadPath env lp) := by
  constructor
  · show r ∈ dropIncomplete _ ↔ _
    unfold dropIncomplete
    rw [List.mem_filter]
    simp only [Bool.and_eq_true]
    exact Iff.rfl
  · intro env lp hfind
    obtain ⟨k, _, _, hd, _, _⟩ :=
      searchBack_sound env.predFs (env.today - 1) (MAX_DAYS_BACK + 1) 0 lp hfind
    have hne : env.today ≠ lp := by
      rw [hd]
      have hk : (0 : Int) ≤ (k : Int) := Int.ofNat_nonneg k
      intro hcontra
      omega
    simp only [savePath, combinedReadPath, ne_eq, SnapshotPath.mk.injEq]
    intro hcon
    exact hne hcon.2.2

/-- C3 witness: a complete row reaches the persisted snapshot, and the write
path of a concrete run differs from its read path. -/
theorem C3_finalize_and_path_witness :
    ((⟨"A", "B", some (mkRat 7 10), mkRat 2 1, mkRat 3 1, "A", some 0,
        1⟩ : ScoredRow) ∈
      (update_betting_statistics (fun s => if s = "d" then some 0 else none)
        [⟨"A", "B", some (mkRat 7 10), mkRat 2 1, mkRat 3 1, none, "d"⟩]
        [⟨"d", "A", 1, 25⟩] 25).finalized) ∧
    savePath ⟨1, fun d => d == 0, fun _ => false, fun _ => [], fun _ => none,
        fun _ => [], fun _ => none, 25, "p", "s"⟩ ≠
      combinedReadPath ⟨1, fun d => d == 0, fun _ => false, fun _ => [],
        fun _ => none, fun _ => [], fun _ => none, 25, "p", "s"⟩ 0 :=
  ⟨(C3_finalize_and_path (fun s => if s = "d" then some 0 else none)
      [⟨"A", "B", some (mkRat 7 10), mkRat 2 1, mkRat 3 1, none, "d"⟩]
      [⟨"d", "A", 1, 25⟩] 25 _).1.mpr ⟨by decide, rfl, rfl⟩,
   (C3_finalize_and_path (fun s => if s = "d" then some 0 else none)
      [⟨"A", "B", some (mkRat 7 10), mkRat 2 1, mkRat 3 1, none, "d"⟩]
      [⟨"d", "A", 1, 25⟩] 25
      ⟨"A", "B", some (mkRat 7 10), mkRat 2 1, mkRat 3 1, "A", some 0, 1⟩).2
      ⟨1, fun d => d == 0, fun _ => false, fun _ => [], fun _ => none,
        fun _ => [], fun _ => none, 25, "p", "s"⟩ 0 rfl⟩

/-- C3 counterexample: a run whose only row has a resolvable date and a
numeric probability but no matching outcome persists that row with `result`
equal to the unresolved marker string "nan": the persisted snapshot is NOT
restricted to fully resolved rows. -/
theorem C3_counterexample :
    (update_betting_statistics (fun s => if s = "d" then some 0 else none)
        [⟨"A", "B", some (mkRat 7 10), mkRat 2 1, mkRat 3 1, none, "d"⟩]
        [] 25).finalized =
      [⟨"A", "B", some (mkRat 7 10), mkRat 2 1, mkRat 3 1, "nan", some 0,
        0⟩] ∧
    (⟨"A", "B", some (mkRat 7 10), mkRat 2 1, mkRat 3 1, "nan", some 0,
        0⟩ : ScoredRow).result = "nan" := by
  decide

/-- C4 (amended). DateRangeLocator: the search result depends only on the
existence predicate over the window [D-120, D] (it never inspects an earlier
date); it returns `none` exactly when no date of the window matches; and if
a file exists at `D-k` with `k ≤ 120` and no file exists at any date from
`D-k+1` up to and including `D` itself (the amendment forced by
`C4_counterexample`: the claim's "strictly between D-k and D" wrongly leaves
`D` out), it returns exactly the date `D-k`. -/
theorem C4_locator (fs fs' : Int → Bool) (D : Int) (k : Nat) :
    ((∀ d : Int, D - (MAX_DAYS_BACK : Int) ≤ d → d ≤ D → fs d = fs' d) →
      find_most_recent_prediction_file fs D =
        find_most_recent_prediction_file fs' D) ∧
    (find_most_recent_prediction_file fs D = none ↔
      ∀ j : Nat, j ≤ MAX_DAYS_BACK → fs (D - (j : Int)) = false) ∧
    (k ≤ MAX_DAYS_BACK → fs (D - (k : Int)) = true →
      (∀ j : Nat, j < k → fs (D - (j : Int)) = false) →
      find_most_recent_prediction_file fs D = some (D - (k : Int))) := by
  refine ⟨?_, ⟨?_, ?_⟩, ?_⟩
  · intro hagree
    apply searchBack_congr
    intro j h1 h2
    simp only [MAX_DAYS_BACK] at h2
    apply hagree
    · simp only [MAX_DAYS_BACK]
      omega
    · omega
  · intro hnone j hj
    simp only [MAX_DAYS_BACK] at hj
    exact searchBack_none_imp fs D (MAX_DAYS_BACK + 1) 0 hnone j
      (Nat.zero_le j) (by simp only [MAX_DAYS_BACK]; omega)
  · intro hall
    apply searchBack_eq_none fs D (MAX_DAYS_BACK + 1) 0
    intro j h1 h2
    simp only [MAX_DAYS_BACK] at h2
    exact hall j (by simp only [MAX_DAYS_BACK]; omega)
  · intro h1 h2 h3
    simp only [MAX_DAYS_BACK] at h1
    exact searchBack_finds fs D (MAX_DAYS_BACK + 1) 0 k (Nat.zero_le k)
      (by simp only [MAX_DAYS_BACK]; omega) h2 (fun j hj1 hj2 => h3 j hj2)

/-- C4 witness: with a file two days back and nothing closer, the locator
returns exactly that date. -/
theorem C4_locator_witness :
    find_most_recent_prediction_file (fun d => decide (d = -2)) 0 =
      some (-2) := by
  have h := (C4_locator (fun d => decide (d = -2)) (fun d => decide (d = -2))
      0 2).2.2 (by simp only [MAX_DAYS_BACK]; omega) (by decide)
      (fun j hj => by interval_cases j <;> rfl)
  simpa using h

/-- C4 counterexample: the claim demands the file at `D-k` (k = 1) whenever
no file exists at a date strictly between `D-k` and `D`; but when a file
exists at `D` itself the locator returns the `D` file, not the `D-1` file. -/
theorem C4_counterexample :
    (fun d : Int => d == 0 || d == -1) (-1) = true ∧
    find_most_recent_prediction_file (fun d : Int => d == 0 || d == -1) 0 =
      some 0 ∧
    find_most_recent_prediction_file (fun d : Int => d == 0 || d == -1) 0 ≠
      some (-1) := by
  decide


/-- C5. Ledger merge: reading the prior combined snapshot when present and
starting from the empty dataset when absent; the output is a projection to
the canonical columns of an intermediate list that is a permutation of the
prior rows followed by the new-batch rows, each new row's `accuracy` tagged
unresolved, ordered by the global date-descending sort; in particular the
output itself contains every prior row and every new-batch row, and is in
date-descending order. -/
theorem C5_ledger_merge (prior : Option (List PredRowAcc))
    (batch : List RawPredRow) (newRows : List PredRow)
    (h : parseBatch batch = Except.ok newRows) :
    ∃ sorted : List PredRowAcc,
      process_prediction_file prior batch =
        Except.ok (sorted.map PredRowAcc.toPredRow) ∧
      sorted.Perm ((prior.getD []) ++
        newRows.map (fun r => ({ toPredRow := r, accuracy := none } : PredRowAcc))) ∧
      List.Sorted dateDesc sorted ∧
      (∀ a ∈ newRows.map
          (fun r => ({ toPredRow := r, accuracy := none } : PredRowAcc)),
        a.accuracy = none) ∧
      (∀ out : List PredRow,
        process_prediction_file prior batch = Except.ok out →
        out.Perm ((prior.getD []).map PredRowAcc.toPredRow ++ newRows) ∧
        List.Sorted dateDescP out) ∧
      process_prediction_file none batch =
        process_prediction_file (some []) batch := by
  refine ⟨List.insertionSort dateDesc ((prior.getD []) ++
    newRows.map (fun r => ({ toPredRow := r, accuracy := none } : PredRowAcc))),
    ?_, List.perm_insertionSort _ _, List.sorted_insertionSort _ _, by simp,
    ?_, rfl⟩
  · simp only [process_prediction_file, h]
    rfl
  · intro out hout
    have h1 : process_prediction_file prior batch =
        Except.ok ((List.insertionSort dateDesc ((prior.getD []) ++
          newRows.map
            (fun r => ({ toPredRow := r, accuracy := none } : PredRowAcc)))).map
              PredRowAcc.toPredRow) := by
      simp only [process_prediction_file, h]
      rfl
    have heq : out = (List.insertionSort dateDesc ((prior.getD []) ++
        newRows.map
          (fun r => ({ toPredRow := r, accuracy := none } : PredRowAcc)))).map
            PredRowAcc.toPredRow := by
      have h2 := h1.symm.trans hout
      exact ((Except.ok.injEq _ _).mp h2).symm
    constructor
    · rw [heq]
      have hperm := (List.perm_insertionSort dateDesc ((prior.getD []) ++
        newRows.map
          (fun r => ({ toPredRow := r, accuracy := none } : PredRowAcc)))).map
            PredRowAcc.toPredRow
      rw [List.map_append, List.map_map] at hperm
      have hid : List.map (PredRowAcc.toPredRow ∘
          fun r => ({ toPredRow := r, accuracy := none } : PredRowAcc)) newRows =
          List.map id newRows :=
        List.map_congr_left (fun r _ => rfl)
      rw [hid, List.map_id] at hperm
      exact hperm
    · rw [heq]
      exact List.Pairwise.map PredRowAcc.toPredRow (fun a b hab => hab)
        (List.sorted_insertionSort dateDesc _)

/-- C5 witness: the merge at a concrete prior snapshot and batch. -/
theorem C5_ledger_merge_witness :
    ∃ sorted : List PredRowAcc,
      process_prediction_file
          (some [⟨⟨"H", "A", some (mkRat 1 2), mkRat 3 2, mkRat 5 2, some "H",
            "2025-01-09"⟩, some 1⟩])
          [⟨"X", "Y", some (mkRat 3 5), "1,85", "2,0", none, "2025-01-10"⟩] =
        Except.ok (sorted.map PredRowAcc.toPredRow) ∧
      sorted.Perm ([⟨⟨"H", "A", some (mkRat 1 2), mkRat 3 2, mkRat 5 2,
          some "H", "2025-01-09"⟩, some 1⟩] ++
        ([(⟨"X", "Y", some (mkRat 3 5), mkRat 37 20, mkRat 2 1, none,
          "2025-01-10"⟩ : PredRow)]).map
          (fun r => ({ toPredRow := r, accuracy := none } : PredRowAcc))) ∧
      List.Sorted dateDesc sorted ∧
      (∀ a ∈ ([(⟨"X", "Y", some (mkRat 3 5), mkRat 37 20, mkRat 2 1, none,
          "2025-01-10"⟩ : PredRow)]).map
          (fun r => ({ toPredRow := r, accuracy := none } : PredRowAcc)),
        a.accuracy = none) ∧
      (∀ out : List PredRow,
        process_prediction_file
            (some [⟨⟨"H", "A", some (mkRat 1 2), mkRat 3 2, mkRat 5 2,
              some "H", "2025-01-09"⟩, some 1⟩])
            [⟨"X", "Y", some (mkRat 3 5), "1,85", "2,0", none,
              "2025-01-10"⟩] = Except.ok out →
        out.Perm (((some [⟨⟨"H", "A", some (mkRat 1 2), mkRat 3 2, mkRat 5 2,
            some "H", "2025-01-09"⟩, some 1⟩] : Option (List PredRowAcc)).getD
              []).map PredRowAcc.toPredRow ++
          [⟨"X", "Y", some (mkRat 3 5), mkRat 37 20, mkRat 2 1, none,
            "2025-01-10"⟩]) ∧
        List.Sorted dateDescP out) ∧
      process_prediction_file none
          [⟨"X", "Y", some (mkRat 3 5), "1,85", "2,0", none, "2025-01-10"⟩] =
        process_prediction_file (some [])
          [⟨"X", "Y", some (mkRat 3 5), "1,85", "2,0", none, "2025-01-10"⟩] :=
  C5_ledger_merge
    (some [⟨⟨"H", "A", some (mkRat 1 2), mkRat 3 2, mkRat 5 2, some "H",
      "2025-01-09"⟩, some 1⟩])
    [⟨"X", "Y", some (mkRat 3 5), "1,85", "2,0", none, "2025-01-10"⟩]
    [⟨"X", "Y", some (mkRat 3 5), mkRat 37 20, mkRat 2 1, none,
      "2025-01-10"⟩] rfl

/-- C6. Reconciliation is the per-row loop applied to every row; it never
alters a row's `date`, team, probability or odds fields — only `result` may
change; an outcome fires on a row exactly when it has `won = 1`, a nonempty
winning-team name (the `if winning_team:` truthiness guard), its date equals
the row's date (both parseable), and the winning team is the row's home or
away team; a row hit by some outcome ends with `result` set to a hitting
outcome's winning team, and a row hit by none keeps its `result` unchanged —
in particular an unresolved `result` stays unresolved. -/
theorem C6_reconcile_frame (s : List RecRow) (gs : List OutcomeRow)
    (r : RecRow) :
    reconcile s gs = s.map (fun x => applyRowAll x gs) ∧
    ((applyRowAll r gs).home_team = r.home_team ∧
     (applyRowAll r gs).away_team = r.away_team ∧
     (applyRowAll r gs).home_team_prob = r.home_team_prob ∧
     (applyRowAll r gs).odds_home = r.odds_home ∧
     (applyRowAll r gs).odds_away = r.odds_away ∧
     (applyRowAll r gs).date = r.date) ∧
    (∀ g : OutcomeRow, hits g r = true ↔
      (g.won = 1 ∧ g.team ≠ "" ∧ dateMatches r.date g.date = true ∧
        (r.home_team = g.team ∨ r.away_team = g.team))) ∧
    ((∃ g ∈ gs, hits g r = true) →
      ∃ g ∈ gs, hits g r = true ∧ (applyRowAll r gs).result = some g.team) ∧
    ((∀ g ∈ gs, hits g r = false) → (applyRowAll r gs).result = r.result) := by
  refine ⟨reconcile_eq_map gs s, applyRowAll_frame gs r, ?_, ?_, ?_⟩
  · intro g
    simp only [hits, rowMatches, Bool.and_eq_true, Bool.or_eq_true,
      beq_iff_eq, Bool.not_eq_true', beq_eq_false_iff_ne, ne_eq, and_assoc]
  · intro hex
    obtain ⟨g, hg, hh, heq⟩ := resultAfter_hit r gs r.result hex
    refine ⟨g, hg, hh, ?_⟩
    rw [applyRowAll_result]
    exact heq
  · intro hall
    rw [applyRowAll_result]
    exact resultAfter_no_hit r gs r.result hall

/-- C6 witness: at a concrete snapshot row and outcome list, the winner is
filled in and the date column is untouched. -/
theorem C6_reconcile_frame_witness :
    (∃ g ∈ [(⟨some 0, "A", 1⟩ : OutcomeRow)],
      hits g ⟨"A", "B", some (mkRat 7 10), mkRat 2 1, mkRat 3 1, none,
        some 0⟩ = true ∧
      (applyRowAll ⟨"A", "B", some (mkRat 7 10), mkRat 2 1, mkRat 3 1, none,
        some 0⟩ [⟨some 0, "A", 1⟩]).result = some g.team) ∧
    (applyRowAll ⟨"A", "B", some (mkRat 7 10), mkRat 2 1, mkRat 3 1, none,
      some 0⟩ [⟨some 0, "A", 1⟩]).date = some 0 := by
  constructor
  · exact (C6_reconcile_frame [] [⟨some 0, "A", 1⟩]
      ⟨"A", "B", some (mkRat 7 10), mkRat 2 1, mkRat 3 1, none,
        some 0⟩).2.2.2.1 ⟨⟨some 0, "A", 1⟩, by decide, by decide⟩
  · exact (C6_reconcile_frame [] [⟨some 0, "A", 1⟩]
      ⟨"A", "B", some (mkRat 7 10), mkRat 2 1, mkRat 3 1, none,
        some 0⟩).2.1.2.2.2.2.2

/-- C7 (amended). Applying the same outcome record twice yields the same
snapshot as applying it once (unconditionally); and processing the outcome
records in any order yields the same final snapshot PROVIDED no two records
resolve the same row with different winning teams (the amendment forced by
`C7_counterexample`: with conflicting winners the result is last-write-wins
and depends on file order). -/
theorem C7_reconcile_algebra (s : List RecRow) (g : OutcomeRow)
    (gs1 gs2 : List OutcomeRow) (hp : gs1.Perm gs2)
    (hc : ∀ g1 ∈ gs1, ∀ g2 ∈ gs1, ∀ x ∈ s,
      hits g1 x = true → hits g2 x = true → g1.team = g2.team) :
    applyOutcome (applyOutcome s g) g = applyOutcome s g ∧
    reconcile s gs1 = reconcile s gs2 := by
  constructor
  · unfold applyOutcome
    rw [List.map_map]
    apply List.map_congr_left
    intro x _
    simp only [Function.comp]
    exact applyOutcomeRow_idem x g
  · rw [reconcile_eq_map, reconcile_eq_map]
    apply List.map_congr_left
    intro x hx
    exact applyRowAll_perm x hp (fun g1 hg1 g2 hg2 => hc g1 hg1 g2 hg2 x hx)

/-- C7 witness: idempotence and order independence at a concrete snapshot
with two non-conflicting outcome records. -/
theorem C7_reconcile_algebra_witness :
    applyOutcome (applyOutcome
        [⟨"A", "B", some (mkRat 7 10), mkRat 2 1, mkRat 3 1, none, some 0⟩]
        ⟨some 0, "A", 1⟩) ⟨some 0, "A", 1⟩ =
      applyOutcome
        [⟨"A", "B", some (mkRat 7 10), mkRat 2 1, mkRat 3 1, none, some 0⟩]
        ⟨some 0, "A", 1⟩ ∧
    reconcile [⟨"A", "B", some (mkRat 7 10), mkRat 2 1, mkRat 3 1, none,
        some 0⟩] [⟨some 0, "A", 1⟩, ⟨some 1, "B", 1⟩] =
      reconcile [⟨"A", "B", some (mkRat 7 10), mkRat 2 1, mkRat 3 1, none,
        some 0⟩] [⟨some 1, "B", 1⟩, ⟨some 0, "A", 1⟩] :=
  C7_reconcile_algebra
    [⟨"A", "B", some (mkRat 7 10), mkRat 2 1, mkRat 3 1, none, some 0⟩]
    ⟨some 0, "A", 1⟩ [⟨some 0, "A", 1⟩, ⟨some 1, "B", 1⟩]
    [⟨some 1, "B", 1⟩, ⟨some 0, "A", 1⟩]
    (List.Perm.swap (⟨some 1, "B", 1⟩ : OutcomeRow)
      (⟨some 0, "A", 1⟩ : OutcomeRow) [])
    (by decide)

/-- C7 counterexample: with two outcome records carrying conflicting winners
for the same row (both `won = 1`, same date, each team a member of the row),
the final snapshot depends on the processing order — reconciliation is not
order-independent in general. -/
theorem C7_counterexample :
    reconcile [⟨"A", "B", some (mkRat 7 10), mkRat 2 1, mkRat 3 1, none,
        some 0⟩] [⟨some 0, "A", 1⟩, ⟨some 0, "B", 1⟩] ≠
      reconcile [⟨"A", "B", some (mkRat 7 10), mkRat 2 1, mkRat 3 1, none,
        some 0⟩] [⟨some 0, "B", 1⟩, ⟨some 0, "A", 1⟩] := by
  decide

/-- C8 (amended). Within a single reconciliation pass, once a row's `result`
has been set to a team name, later outcome records never overwrite it with a
different name PROVIDED no two records of the pass resolve that row with
different winning teams; the claim's own precondition — exactly one of the
two teams of each matchup has `won = 1` — does NOT ensure this, because two
different games on the same date can both involve teams of one row (see
`C8_counterexample`). -/
theorem C8_once_set (r : RecRow) (gs1 gs2 : List OutcomeRow) (t : String)
    (hcompat : ∀ g1 ∈ gs1 ++ gs2, ∀ g2 ∈ gs1 ++ gs2,
      hits g1 r = true → hits g2 r = true → g1.team = g2.team)
    (hset : (applyRowAll r gs1).result = some t)
    (hchanged : (applyRowAll r gs1).result ≠ r.result) :
    (applyRowAll r (gs1 ++ gs2)).result = some t :=
  once_set_stable r gs1 gs2 t hcompat hset hchanged

/-- C8 witness: a result set earlier in the pass survives the rest of the
pass when every hitting record names the same winner. -/
theorem C8_once_set_witness :
    (applyRowAll ⟨"A", "B", some (mkRat 7 10), mkRat 2 1, mkRat 3 1, none,
        some 0⟩ ([⟨some 0, "A", 1⟩] ++ [⟨some 0, "A", 1⟩])).result =
      some "A" :=
  C8_once_set ⟨"A", "B", some (mkRat 7 10), mkRat 2 1, mkRat 3 1, none,
      some 0⟩ [⟨some 0, "A", 1⟩] [⟨some 0, "A", 1⟩] "A" (by decide)
    (by decide) (by decide)

/-- C8 counterexample: outcome data satisfying the claim's precondition —
game A vs B on date 0 with A the unique winner, and game B vs C on date 0
with B the unique winner — first sets the row's `result` to "A" and then
overwrites it with the different team "B" within the same pass. -/
theorem C8_counterexample :
    (applyRowAll ⟨"A", "B", some (mkRat 7 10), mkRat 2 1, mkRat 3 1, none,
        some 0⟩
      [⟨some 0, "A", 1⟩, ⟨some 0, "B", 0⟩]).result = some "A" ∧
    (applyRowAll ⟨"A", "B", some (mkRat 7 10), mkRat 2 1, mkRat 3 1, none,
        some 0⟩
      [⟨some 0, "A", 1⟩, ⟨some 0, "B", 0⟩, ⟨some 0, "B", 1⟩,
       ⟨some 0, "C", 0⟩]).result = some "B" ∧
    "A" ≠ "B" := by
  decide


/-- A malformed odds token in any row of the batch makes the whole batch
conversion fail with the `MalformedNumberError` (`ValueError`). -/
theorem parseBatch_malformed :
    ∀ batch : List RawPredRow, (∃ r ∈ batch, isMalformed r = true) →
      parseBatch batch = Except.error "MalformedNumberError" := by
  intro batch
  induction batch with
  | nil => intro h; exact absurd h (by simp)
  | cons r rs ih =>
      intro h
      by_cases hr : isMalformed r = true
      · have herr : parseRowOdds r = Except.error "MalformedNumberError" := by
          unfold isMalformed at hr
          unfold parseRowOdds parseOddsToken
          rcases h1 : pyFloat (commaToPoint r.odds1) with _ | q1 <;>
            rcases h2 : pyFloat (commaToPoint r.odds2) with _ | q2 <;>
              simp [h1, h2] at hr ⊢
        simp only [parseBatch, herr]
      · have hok : ∃ p, parseRowOdds r = Except.ok p := by
          unfold isMalformed at hr
          unfold parseRowOdds parseOddsToken
          rcases h1 : pyFloat (commaToPoint r.odds1) with _ | q1 <;>
            rcases h2 : pyFloat (commaToPoint r.odds2) with _ | q2 <;>
              simp [h1, h2] at hr ⊢
        obtain ⟨p, hp⟩ := hok
        have hrs : ∃ x ∈ rs, isMalformed x = true := by
          obtain ⟨x, hxmem, hxbad⟩ := h
          rcases List.mem_cons.mp hxmem with rfl | hxs
          · exact absurd hxbad hr
          · exact ⟨x, hxs, hxbad⟩
        simp only [parseBatch, hp, ih hrs]

/-- C9. Odds normalization: the merge converts each odds token by replacing
the comma decimal separator with a point and parsing as float, so "1,85"
yields the number 1.85; a token such as "abc" that is non-numeric after this
conversion raises the malformed-number error, and a batch containing any
such token fails as a whole (surfaced as an error — never silently coerced
to zero). -/
theorem C9_odds_parsing (prior : Option (List PredRowAcc))
    (batch : List RawPredRow) (hbad : ∃ r ∈ batch, isMalformed r = true) :
    parseOddsToken "1,85" = Except.ok ((185 : ℚ) / 100) ∧
    parseOddsToken "abc" = Except.error "MalformedNumberError" ∧
    process_prediction_file prior batch =
      Except.error "MalformedNumberError" := by
  refine ⟨?_, rfl, ?_⟩
  · have h1 : pyFloat (commaToPoint "1,85") = some (mkRat 185 100) := by
      decide
    unfold parseOddsToken
    rw [h1]
    have h2 : (mkRat 185 100 : ℚ) = (185 : ℚ) / 100 := by
      rw [Rat.mkRat_eq_div]
      norm_num
    rw [h2]
  · unfold process_prediction_file
    rw [parseBatch_malformed batch hbad]
    rfl

/-- C9 witness: the batch containing the odds token "abc" fails with the
malformed-number error, while "1,85" parses to 1.85. -/
theorem C9_odds_parsing_witness :
    parseOddsToken "1,85" = Except.ok ((185 : ℚ) / 100) ∧
    parseOddsToken "abc" = Except.error "MalformedNumberError" ∧
    process_prediction_file none
        [⟨"A", "B", some (mkRat 7 10), "abc", "2,0", none, "2025-01-10"⟩] =
      Except.error "MalformedNumberError" :=
  C9_odds_parsing none
    [⟨"A", "B", some (mkRat 7 10), "abc", "2,0", none, "2025-01-10"⟩]
    ⟨⟨"A", "B", some (mkRat 7 10), "abc", "2,0", none, "2025-01-10"⟩,
      by decide, by decide⟩

/-- C10. Orchestration: when no prediction file exists in the 120-day
window, the run ends at the locating stage with the artifact-not-found
outcome and performs no file write; when no statistics file exists in the
window, the run performs no file write and never reaches the `done` state —
and if the prediction stage and the merge succeeded, it ends exactly with
the statistics-stage artifact-not-found outcome and no write. No merge,
reconciliation, scoring or persistence step runs after a failed location
stage. -/
theorem C10_abort_semantics (env : Env) (lp : Int) (rows : List PredRow) :
    ((∀ k : Nat, k ≤ MAX_DAYS_BACK →
        env.predFs (env.today - 1 - (k : Int)) = false) →
      main env = (RunOutcome.abortNoPrediction, [])) ∧
    ((∀ k : Nat, k ≤ MAX_DAYS_BACK →
        env.statFs (env.today - 1 - (k : Int)) = false) →
      (main env).2 = [] ∧ (main env).1 ≠ RunOutcome.done) ∧
    (find_most_recent_prediction_file env.predFs (env.today - 1) = some lp →
      process_prediction_file (env.combined lp) (env.predContent lp) =
        Except.ok rows →
      (∀ k : Nat, k ≤ MAX_DAYS_BACK →
        env.statFs (env.today - 1 - (k : Int)) = false) →
      main env = (RunOutcome.abortNoStatistics, [])) := by
  have hstat : (∀ k : Nat, k ≤ MAX_DAYS_BACK →
      env.statFs (env.today - 1 - (k : Int)) = false) →
      find_file_in_date_range env.statFs (env.today - 1) = none := by
    intro hall
    unfold find_file_in_date_range
    apply searchBack_eq_none
    intro k h1 h2
    exact hall k (by simp only [MAX_DAYS_BACK] at h2 ⊢; omega)
  refine ⟨?_, ?_, ?_⟩
  · intro hall
    have hpred : find_most_recent_prediction_file env.predFs (env.today - 1) =
        none := by
      unfold find_most_recent_prediction_file
      apply searchBack_eq_none
      intro k h1 h2
      exact hall k (by simp only [MAX_DAYS_BACK] at h2 ⊢; omega)
    unfold main
    rw [hpred]
  · intro hall
    rcases hfind : find_most_recent_prediction_file env.predFs
        (env.today - 1) with _ | lp'
    · unfold main
      rw [hfind]
      exact ⟨rfl, by simp⟩
    · rcases hproc : process_prediction_file (env.combined lp')
          (env.predContent lp') with e | rows'
      · unfold main
        simp only [hfind, hproc]
        exact ⟨trivial, by simp⟩
      · unfold main
        simp only [hfind, hproc, hstat hall]
        exact ⟨trivial, by simp⟩
  · intro hfind hproc hall
    unfold main
    simp only [hfind, hproc, hstat hall]

/-- C10 witness: a run against an empty filesystem aborts at the prediction
location stage with no writes. -/
theorem C10_abort_semantics_witness :
    main ⟨0, fun _ => false, fun _ => false, fun _ => [], fun _ => none,
        fun _ => [], fun _ => none, 0, "p", "s"⟩ =
      (RunOutcome.abortNoPrediction, []) :=
  (C10_abort_semantics ⟨0, fun _ => false, fun _ => false, fun _ => [],
      fun _ => none, fun _ => [], fun _ => none, 0, "p", "s"⟩ 0 []).1
    (fun _ _ => rfl)

end BettingStats
